import Mathlib

/-!
Verification of the anonymous usage-reporting core (`pkg/usagestats/reporter.go`):
cluster-seed leader election over a compare-and-swap key-value store, seed
persistence in a blob store with corruption recovery, and the drift-resistant
periodic report scheduler with bounded transmit retry.

Times and durations are modelled as integers (nanosecond counts, as in Go's
`time.Time`/`time.Duration`); the zero `time.Time` is modelled as `0`.
-/

namespace UsageStats

/-- Modelled from the spec: the `ClusterSeed` type is declared outside the given
source file; per the spec it carries a locally generated unique `UID`, an
informational version string, and the `CreatedAt` timestamp fixing the report
schedule phase. Field names follow the source's uses (`seed.UID`,
`seed.PrometheusVersion`, `seed.CreatedAt`). -/
structure ClusterSeed where
  UID : String
  PrometheusVersion : String
  CreatedAt : Int
deriving DecidableEq

/-- Source constant `attemptNumber = 4`: how many times the code is documented
to try reading a corrupted cluster seed before deleting it. -/
def attemptNumber : Nat := 4

/-- Configuration of a `dskit` backoff policy as used by the source:
min delay, max delay (seconds), and max retries (0 = unbounded). -/
structure BackoffConfig where
  minBackoff : Int
  maxBackoff : Int
  maxRetries : Nat
deriving DecidableEq

/-- Backoff used by `initLeader`: 1s → 60s, unbounded. -/
def electionBackoff : BackoffConfig := ⟨1, 60, 0⟩

/-- Backoff used by `fetchSeed`: 1s → 60s, unbounded. -/
def fetchSeedBackoff : BackoffConfig := ⟨1, 60, 0⟩

/-- Backoff used by `reportUsage`: 1s → 30s, at most 5 attempts. -/
def reportBackoff : BackoffConfig := ⟨1, 30, 5⟩

/-- A value held under the election key in the kv store, as seen by the CAS
callback: the callback receives `Option KVValue` where `none` models Go `nil`,
`KVValue.seed` a value of type `*ClusterSeed`, and `KVValue.other` a non-nil
value of any other dynamic type (the `ok` type assertion fails on it). -/
inductive KVValue where
  | seed (s : ClusterSeed)
  | other
deriving DecidableEq

/-- The CAS callback of `initLeader`, translated from the source:

```go
func(in interface{}) (out interface{}, retry bool, err error) {
    if in != nil {
        if kvSeed, ok := in.(*ClusterSeed); ok && kvSeed.UID != seed.UID {
            seed = *kvSeed
            return nil, false, nil
        }
    }
    return seed, true, nil
}
```

Returns `(seed', out, retry)` where `seed'` is the local `seed` variable after
the callback ran (the callback mutates it in the adopt branch) and `out = none`
models returning `nil` (the kv client then performs no write). -/
def casCallback (seed : ClusterSeed) (in_ : Option KVValue) :
    ClusterSeed × Option KVValue × Bool :=
  match in_ with
  | some (KVValue.seed kvSeed) =>
      if kvSeed.UID ≠ seed.UID then (kvSeed, none, false)
      else (seed, some (KVValue.seed seed), true)
  | some KVValue.other => (seed, some (KVValue.seed seed), true)
  | none => (seed, some (KVValue.seed seed), true)

/-- One successful CAS call against the election key (dskit contract: the
callback sees the current value atomically; a `none` output means no write).
Returns the new key value, the resolved local seed, and whether the caller's
candidate was written (i.e. it was elected rather than adopting). -/
def electOrAdopt (kv : Option KVValue) (cand : ClusterSeed) :
    Option KVValue × ClusterSeed × Bool :=
  match casCallback cand kv with
  | (seed', none, _) => (kv, seed', false)
  | (seed', some out, _) => (some out, seed', true)

/-- Result of one iteration of `initLeader`'s loop body. -/
structure IterResult where
  kv : Option KVValue
  blob : Option ClusterSeed
  resolved : ClusterSeed
  kvWrote : Bool
  blobWrote : Bool
deriving DecidableEq

/-- One failure-free iteration of `initLeader`'s loop body, translated from the
source: CAS against the election key, then fetch the remote seed blob; on
`NotFound` write the (possibly adopted) local seed to the blob and return it,
otherwise return the remote seed unchanged. -/
def initLeaderIter (kv : Option KVValue) (blob : Option ClusterSeed)
    (cand : ClusterSeed) : IterResult :=
  match electOrAdopt kv cand with
  | (kv', seed', wrote) =>
    match blob with
    | some remote => ⟨kv', some remote, remote, wrote, false⟩
    | none => ⟨kv', some seed', seed', wrote, true⟩

/-- Outcome of one read of the seed blob, as classified by the source:
`found` (decodes to a seed), `notFound` (`IsObjectNotFoundErr`), or `corrupt`
(any other error, e.g. decode failure). -/
inductive ReadResult where
  | found (s : ClusterSeed)
  | notFound
  | corrupt
deriving DecidableEq

/-- The `fetchSeed` retry loop, translated from the source. The list holds the
outcomes of successive blob reads supplied by the environment; exhausting it
models the governing context being cancelled (`backoff.Ongoing()` false, the
loop falls through to `return nil, backoff.Err()`). `alwaysContinue = true`
models `continueFn == nil` (follower); `false` models the leader's
`continueFn`, which stops on `IsObjectNotFoundErr`. `readingErr` is the
corruption counter, `deletes` counts `DeleteObject` calls. The first component
of the result is `none` when the loop was cancelled, `some none` when it
returned `(nil, err)` through `continueFn`, and `some (some s)` on success. -/
def fetchSeedGo (alwaysContinue : Bool) :
    List ReadResult → Nat → Nat → Option (Option ClusterSeed) × Nat
  | [], _, deletes => (none, deletes)
  | ReadResult.found s :: _, _, deletes => (some (some s), deletes)
  | ReadResult.notFound :: rest, readingErr, deletes =>
      if readingErr > attemptNumber then
        if alwaysContinue then fetchSeedGo alwaysContinue rest 0 (deletes + 1)
        else (some none, deletes + 1)
      else
        if alwaysContinue then fetchSeedGo alwaysContinue rest readingErr deletes
        else (some none, deletes)
  | ReadResult.corrupt :: rest, readingErr, deletes =>
      if readingErr + 1 > attemptNumber then
        fetchSeedGo alwaysContinue rest 0 (deletes + 1)
      else fetchSeedGo alwaysContinue rest (readingErr + 1) deletes

/-- Run `fetchSeed` from its initial state (counter 0, no deletes issued). -/
def fetchSeedRun (alwaysContinue : Bool) (reads : List ReadResult) :
    Option (Option ClusterSeed) × Nat :=
  fetchSeedGo alwaysContinue reads 0 0

/-- The follower branch of `init`, translated from the source: the error of
`fetchSeed` is discarded (`seed, _ := rep.fetchSeed(ctx, nil)`) and whatever
seed pointer came back — `nil` included — is stored in `rep.cluster`. -/
def initFollower (reads : List ReadResult) : Option ClusterSeed :=
  match (fetchSeedRun true reads).1 with
  | some (some s) => some s
  | _ => none

/-- Runtime failures of the `running` loop that the model makes explicit. -/
inductive RunFailure where
  | nilSeedPanic
deriving DecidableEq

/-- Exact integer ceiling of the rational `a / b` (for `b > 0`):
`⌈a/b⌉ = -⌊(-a)/b⌋`, with `Int./` being floor division for positive `b`. -/
def ceilDiv (a b : Int) : Int := -((-a) / b)

/-- Translated from the source's `nextReport`:

```go
return createdAt.Add(time.Duration(math.Ceil(float64(now.Sub(createdAt))/float64(interval))) * interval)
```

The Go code takes the exact real ceiling of `(now-createdAt)/interval` via
`math.Ceil`; it is modelled here as exact integer ceiling division on the
nanosecond counts. -/
def nextReport (interval createdAt now : Int) : Int :=
  createdAt + ceilDiv (now - createdAt) interval * interval

/-- The skip condition of the tick loop, translated from the source:
`!next.Equal(now) && now.Sub(rep.lastReport) < reportInterval` (the loop
`continue`s, i.e. no report is due, exactly when this holds). -/
def shouldSkip (interval now next lastReport : Int) : Bool :=
  !(next == now) && (now - lastReport < interval)

/-- Scheduler state of the `running` loop: the next report time and the time
of the last successful report. -/
structure TickState where
  next : Int
  lastReport : Int
deriving DecidableEq

/-- One iteration of the tick loop's `ticker.C` branch, translated from the
source: skip if not due; otherwise attempt `reportUsage` — on success set
`lastReport = next` and advance `next` by one interval, on failure leave both
unchanged. `sendOk` is whether `reportUsage` returned `nil`. -/
def tick (interval now : Int) (sendOk : Bool) (st : TickState) : TickState :=
  if shouldSkip interval now st.next st.lastReport then st
  else if sendOk then ⟨st.next + interval, st.next⟩ else st

/-- Schedule set-up at the top of `running`, translated from the source:
`next := nextReport(...)`; if `rep.lastReport.IsZero()` then
`rep.lastReport = next.Add(-reportInterval)`. -/
def runningSchedule (interval createdAt now lastReport : Int) : TickState :=
  let next := nextReport interval createdAt now
  ⟨next, if lastReport = 0 then next - interval else lastReport⟩

/-- The first statements of `running` after `rep.init(ctx)` returns, translated
from the source: `nextReport(reportInterval, rep.cluster.CreatedAt, time.Now())`
dereferences `rep.cluster` unconditionally, so an absent (nil) cluster seed is
a nil-pointer panic; otherwise the schedule state is computed. -/
def runningStart (cluster : Option ClusterSeed) (interval now lastReport : Int) :
    Except RunFailure TickState :=
  match cluster with
  | none => Except.error RunFailure.nilSeedPanic
  | some c => Except.ok (runningSchedule interval c.CreatedAt now lastReport)

/-- The `reportUsage` retry loop, translated from the source. `send n` is the
outcome of the `sendReport` attempt made when `backoff.NumRetries() = n`
(`none` = success, `some e` = the attempt's error). The fuel argument is
`maxRetries - numRetries`: `backoff.Ongoing()` is false once it reaches 0, and
each failed attempt calls `backoff.Wait()`, consuming one unit. Returns the
result (`Except.error` carries the accumulated `multierror` list, in order)
and the number of `sendReport` calls made. -/
def reportUsageGo (send : Nat → Option String) :
    Nat → Nat → List String → Except (List String) Unit × Nat
  | 0, _, errs => (Except.error errs, 0)
  | fuel + 1, n, errs =>
      match send n with
      | none => (Except.ok (), 1)
      | some e =>
          match reportUsageGo send fuel (n + 1) (errs ++ [e]) with
          | (r, c) => (r, c + 1)

/-- Run `reportUsage` from its initial state, with the source's bounded backoff
configuration (`MaxRetries: 5`). -/
def reportUsage (send : Nat → Option String) : Except (List String) Unit × Nat :=
  reportUsageGo send reportBackoff.maxRetries 0 []

namespace Race

/-- Program counter of one leader candidate running the failure-free path of
`initLeader`: about to CAS, about to read the blob, about to write the blob
(only reached when the read returned `NotFound`), or returned. -/
inductive PC where
  | cas
  | readBlob
  | writeBlob
  | done
deriving DecidableEq

/-- One leader candidate: its program counter, its local `seed` variable, and
whether its last blob read returned `NotFound`. -/
structure Proc where
  pc : PC
  seed : ClusterSeed
  lastReadNotFound : Bool
deriving DecidableEq

/-- The shared system: the election key, the seed blob, the two candidates,
and a log recording, for every blob write issued, whether the writer's
preceding blob read had returned `NotFound`. -/
structure Sys where
  kv : Option ClusterSeed
  blob : Option ClusterSeed
  a : Proc
  b : Proc
  writeLog : List Bool
deriving DecidableEq

/-- Effect of one atomic step of a candidate. -/
structure StepOut where
  kv : Option ClusterSeed
  blob : Option ClusterSeed
  p : Proc
  ev : Option Bool
deriving DecidableEq

/-- One atomic step of a candidate, translated from `initLeader`'s body:
the CAS (with its callback's adopt/propose cases), the blob read (`NotFound`
moves to the write, a decodable seed is adopted and returned), and the blob
write (which persists the local seed and returns it). -/
def procStep (kv blob : Option ClusterSeed) (p : Proc) : StepOut :=
  match p.pc with
  | PC.cas =>
      match kv with
      | some kvSeed =>
          if kvSeed.UID ≠ p.seed.UID then
            ⟨kv, blob, ⟨PC.readBlob, kvSeed, p.lastReadNotFound⟩, none⟩
          else
            ⟨some p.seed, blob, ⟨PC.readBlob, p.seed, p.lastReadNotFound⟩, none⟩
      | none => ⟨some p.seed, blob, ⟨PC.readBlob, p.seed, p.lastReadNotFound⟩, none⟩
  | PC.readBlob =>
      match blob with
      | none => ⟨kv, blob, ⟨PC.writeBlob, p.seed, true⟩, none⟩
      | some s => ⟨kv, blob, ⟨PC.done, s, false⟩, none⟩
  | PC.writeBlob => ⟨kv, some p.seed, ⟨PC.done, p.seed, p.lastReadNotFound⟩, some p.lastReadNotFound⟩
  | PC.done => ⟨kv, blob, p, none⟩

/-- One step of the system: `aTurn` selects which candidate moves. -/
def sysStep (aTurn : Bool) (s : Sys) : Sys :=
  if aTurn then
    match procStep s.kv s.blob s.a with
    | o => ⟨o.kv, o.blob, o.p, s.b, s.writeLog ++ o.ev.toList⟩
  else
    match procStep s.kv s.blob s.b with
    | o => ⟨o.kv, o.blob, s.a, o.p, s.writeLog ++ o.ev.toList⟩

/-- Run the system under an interleaving schedule. -/
def run (sched : List Bool) (s : Sys) : Sys :=
  sched.foldl (fun t w => sysStep w t) s

/-- Initial state of the race: election key and blob absent, both candidates
about to CAS with their freshly generated seeds. -/
def initSys (sa sb : ClusterSeed) : Sys :=
  ⟨none, none, ⟨PC.cas, sa, false⟩, ⟨PC.cas, sb, false⟩, []⟩

/-- Exchange the two candidates. -/
def swap (s : Sys) : Sys := ⟨s.kv, s.blob, s.b, s.a, s.writeLog⟩

/-- Inductive invariant of the two-candidate race from an initially-absent
election key. -/
structure Inv (sa sb : ClusterSeed) (s : Sys) : Prop where
  ha : s.a.pc = PC.cas → s.a.seed = sa
  hb : s.b.pc = PC.cas → s.b.seed = sb
  hkvn : s.kv = none → s.blob = none ∧ s.a.pc = PC.cas ∧ s.b.pc = PC.cas
  hkvs : ∀ w, s.kv = some w →
    (w = sa ∧ s.a.pc ≠ PC.cas) ∨ (w = sb ∧ s.b.pc ≠ PC.cas)
  hseedA : ∀ w, s.kv = some w → s.a.pc ≠ PC.cas → s.a.seed = w
  hseedB : ∀ w, s.kv = some w → s.b.pc ≠ PC.cas → s.b.seed = w
  hblob : ∀ x, s.blob = some x → s.kv = some x
  hdoneA : s.a.pc = PC.done → s.blob ≠ none
  hdoneB : s.b.pc = PC.done → s.blob ≠ none
  hwA : s.a.pc = PC.writeBlob → s.a.lastReadNotFound = true
  hwB : s.b.pc = PC.writeBlob → s.b.lastReadNotFound = true
  hlog : ∀ e ∈ s.writeLog, e = true


theorem inv_init (sa sb : ClusterSeed) : Inv sa sb (initSys sa sb) := by
  refine ⟨?_, ?_, ?_, ?_, ?_, ?_, ?_, ?_, ?_, ?_, ?_, ?_⟩ <;> simp [initSys]

set_option maxHeartbeats 1000000 in
theorem inv_stepA (sa sb : ClusterSeed) (huid : sa.UID ≠ sb.UID)
    (s : Sys) (h : Inv sa sb s) : Inv sa sb (sysStep true s) := by
  obtain ⟨kv, blob, ⟨apc, aseed, anf⟩, ⟨bpc, bseed, bnf⟩, log⟩ := s
  obtain ⟨ha, hb, hkvn, hkvs, hseedA, hseedB, hblob, hdoneA, hdoneB, hwA, hwB, hlog⟩ := h
  simp only at ha hb hkvn hkvs hseedA hseedB hblob hdoneA hdoneB hwA hwB hlog
  cases apc with
  | cas =>
    have hsa : aseed = sa := ha rfl
    subst hsa
    cases kv with
    | none =>
      obtain ⟨hbl, -, hbc⟩ := hkvn rfl
      subst hbl
      refine ⟨?_, ?_, ?_, ?_, ?_, ?_, ?_, ?_, ?_, ?_, ?_, ?_⟩ <;>
        simp_all [sysStep, procStep]
    | some k =>
      rcases hkvs k rfl with ⟨-, hac⟩ | ⟨hk, hbc⟩
      · exact absurd rfl hac
      have hu : k.UID ≠ aseed.UID := by rw [hk]; exact Ne.symm huid
      have hred : sysStep true
          (⟨some k, blob, ⟨PC.cas, aseed, anf⟩, ⟨bpc, bseed, bnf⟩, log⟩ : Sys) =
          ⟨some k, blob, ⟨PC.readBlob, k, anf⟩, ⟨bpc, bseed, bnf⟩, log⟩ := by
        simp [sysStep, procStep, hu]
      rw [hred]
      refine ⟨?_, ?_, ?_, ?_, ?_, ?_, ?_, ?_, ?_, ?_, ?_, ?_⟩ <;> simp_all
  | readBlob =>
    cases blob with
    | none =>
      refine ⟨?_, ?_, ?_, ?_, ?_, ?_, ?_, ?_, ?_, ?_, ?_, ?_⟩ <;>
        simp_all [sysStep, procStep]
    | some x =>
      have hkv := hblob x rfl
      refine ⟨?_, ?_, ?_, ?_, ?_, ?_, ?_, ?_, ?_, ?_, ?_, ?_⟩ <;>
        simp_all [sysStep, procStep]
  | writeBlob =>
    have hkv : kv = some aseed := by
      cases kv with
      | none => exact absurd ((hkvn rfl).2.1) (by simp)
      | some w => rw [hseedA w rfl (by simp)]
    have hnf : anf = true := hwA rfl
    subst hnf
    refine ⟨?_, ?_, ?_, ?_, ?_, ?_, ?_, ?_, ?_, ?_, ?_, ?_⟩ <;>
      simp_all [sysStep, procStep]
  | done =>
    refine ⟨?_, ?_, ?_, ?_, ?_, ?_, ?_, ?_, ?_, ?_, ?_, ?_⟩ <;>
      simp_all [sysStep, procStep]

theorem sysStep_false_swap (s : Sys) : sysStep false s = swap (sysStep true (swap s)) := by
  obtain ⟨kv, blob, a, b, log⟩ := s
  rfl

theorem inv_swap (sa sb : ClusterSeed) (s : Sys) (h : Inv sa sb s) :
    Inv sb sa (swap s) := by
  obtain ⟨ha, hb, hkvn, hkvs, hseedA, hseedB, hblob, hdoneA, hdoneB, hwA, hwB, hlog⟩ := h
  exact ⟨hb, ha, fun hk => ⟨(hkvn hk).1, (hkvn hk).2.2, (hkvn hk).2.1⟩,
    fun w hw => Or.symm (hkvs w hw), hseedB, hseedA, hblob, hdoneB, hdoneA,
    hwB, hwA, hlog⟩

theorem inv_sysStep (sa sb : ClusterSeed) (huid : sa.UID ≠ sb.UID) (turn : Bool)
    (s : Sys) (h : Inv sa sb s) : Inv sa sb (sysStep turn s) := by
  cases turn with
  | true => exact inv_stepA sa sb huid s h
  | false =>
    rw [sysStep_false_swap]
    exact inv_swap sb sa _ (inv_stepA sb sa (Ne.symm huid) (swap s) (inv_swap sa sb s h))

theorem inv_run (sa sb : ClusterSeed) (huid : sa.UID ≠ sb.UID) (sched : List Bool)
    (s : Sys) (h : Inv sa sb s) : Inv sa sb (run sched s) := by
  induction sched generalizing s with
  | nil => exact h
  | cons w rest ih => exact ih (sysStep w s) (inv_sysStep sa sb huid w s h)


/-- C1: for every cluster at most one `ClusterSeed` is durably persisted —
when two leader candidates with distinct UIDs race `electOrAdopt` against an
initially-absent election key and both complete, exactly one candidate's seed
becomes the persisted blob's value, both candidates resolve to that winner
seed, and every blob write in the run was issued only after a blob read that
returned `NotFound`. -/
theorem seed_race_unique_persisted (sa sb : ClusterSeed) (huid : sa.UID ≠ sb.UID)
    (sched : List Bool)
    (hA : (run sched (initSys sa sb)).a.pc = PC.done)
    (hB : (run sched (initSys sa sb)).b.pc = PC.done) :
    ∃ w, (run sched (initSys sa sb)).blob = some w ∧
      ((w = sa ∧ w ≠ sb) ∨ (w = sb ∧ w ≠ sa)) ∧
      (run sched (initSys sa sb)).a.seed = w ∧
      (run sched (initSys sa sb)).b.seed = w ∧
      (∀ e ∈ (run sched (initSys sa sb)).writeLog, e = true) := by
  have hne : sa ≠ sb := fun he => huid (by rw [he])
  obtain ⟨ha, hb, hkvn, hkvs, hseedA, hseedB, hblob, hdoneA, hdoneB, hwA, hwB, hlog⟩ :=
    inv_run sa sb huid sched (initSys sa sb) (inv_init sa sb)
  have hbn := hdoneA hA
  rcases hblobv : (run sched (initSys sa sb)).blob with _ | x
  · exact absurd hblobv hbn
  · have hkv := hblob x hblobv
    have hAne : (run sched (initSys sa sb)).a.pc ≠ PC.cas := by rw [hA]; simp
    have hBne : (run sched (initSys sa sb)).b.pc ≠ PC.cas := by rw [hB]; simp
    have hAseed := hseedA x hkv hAne
    have hBseed := hseedB x hkv hBne
    rcases hkvs x hkv with ⟨hx, -⟩ | ⟨hx, -⟩
    · exact ⟨x, rfl, Or.inl ⟨hx, by rw [hx]; exact hne⟩, hAseed, hBseed, hlog⟩
    · exact ⟨x, rfl, Or.inr ⟨hx, by rw [hx]; exact hne.symm⟩, hAseed, hBseed, hlog⟩

/-- Witness for C1 at a concrete race: candidate `a` CASes, reads `NotFound`
and writes the blob; candidate `b` then adopts and reads `a`'s blob. -/
theorem seed_race_unique_persisted_witness :
    ∃ w, (run [true, true, true, false, false]
        (initSys ⟨"a", "v", 0⟩ ⟨"b", "v", 0⟩)).blob = some w ∧
      ((w = (⟨"a", "v", 0⟩ : ClusterSeed) ∧ w ≠ ⟨"b", "v", 0⟩) ∨
        (w = (⟨"b", "v", 0⟩ : ClusterSeed) ∧ w ≠ ⟨"a", "v", 0⟩)) ∧
      (run [true, true, true, false, false]
        (initSys ⟨"a", "v", 0⟩ ⟨"b", "v", 0⟩)).a.seed = w ∧
      (run [true, true, true, false, false]
        (initSys ⟨"a", "v", 0⟩ ⟨"b", "v", 0⟩)).b.seed = w ∧
      (∀ e ∈ (run [true, true, true, false, false]
        (initSys ⟨"a", "v", 0⟩ ⟨"b", "v", 0⟩)).writeLog, e = true) :=
  seed_race_unique_persisted ⟨"a", "v", 0⟩ ⟨"b", "v", 0⟩ (by decide)
    [true, true, true, false, false] (by decide) (by decide)

end Race

/-- C2: for `interval > 0` and `now ≥ createdAt`, `nextReport` returns a time
`t` with `now ≤ t < now + interval` such that `t - createdAt` is an exact
non-negative integer multiple of `interval`. -/
theorem nextReport_aligned (interval createdAt now : Int)
    (hi : 0 < interval) (hn : createdAt ≤ now) :
    now ≤ nextReport interval createdAt now ∧
    nextReport interval createdAt now < now + interval ∧
    ∃ k : Int, 0 ≤ k ∧ nextReport interval createdAt now - createdAt = k * interval := by
  have hne : interval ≠ 0 := ne_of_gt hi
  have hdm := Int.ediv_add_emod (-(now - createdAt)) interval
  have hm0 : 0 ≤ -(now - createdAt) % interval := Int.emod_nonneg _ hne
  have hm1 : -(now - createdAt) % interval < interval := Int.emod_lt_of_pos _ hi
  have hval : nextReport interval createdAt now =
      createdAt - -(now - createdAt) / interval * interval := by
    simp only [nextReport, ceilDiv]; ring
  have hq : -(now - createdAt) / interval * interval =
      -(now - createdAt) - -(now - createdAt) % interval := by
    linarith [mul_comm interval (-(now - createdAt) / interval)]
  refine ⟨?_, ?_, ⟨-(-(now - createdAt) / interval), ?_, ?_⟩⟩
  · rw [hval, hq]; linarith
  · rw [hval, hq]; linarith
  · by_contra hcon
    push_neg at hcon
    have h1 : 1 ≤ -(now - createdAt) / interval := by linarith
    have h2 : interval ≤ -(now - createdAt) / interval * interval :=
      le_mul_of_one_le_left (le_of_lt hi) h1
    linarith
  · rw [hval]; ring

/-- Witness for C2 at `interval = 7`, `createdAt = 3`, `now = 10`. -/
theorem nextReport_aligned_witness :
    (10 : Int) ≤ nextReport 7 3 10 ∧
    nextReport 7 3 10 < 10 + 7 ∧
    ∃ k : Int, 0 ≤ k ∧ nextReport 7 3 10 - 3 = k * 7 :=
  nextReport_aligned 7 3 10 (by decide) (by decide)

/-- C3: the code violates the claim — with the governing context cancelled
before any blob read succeeds (an empty read trace), the follower path of
`init` stores no cluster seed, yet `running` unconditionally evaluates
`rep.cluster.CreatedAt`, i.e. it does read a field of the absent cluster seed
(a nil-pointer panic) instead of not proceeding to reporting. -/
theorem cancelled_init_panics :
    initFollower [] = none ∧
    runningStart (initFollower []) 3600000000000 0 0 =
      Except.error RunFailure.nilSeedPanic :=
  ⟨rfl, rfl⟩

/-- C4: the code violates the claim — after 4 consecutive corrupt reads
`fetchSeed` has issued no delete call (the source checks
`readingErr > attemptNumber`, so the delete fires only during the 5th
consecutive corrupt read); after a 5th corrupt read it issues exactly one
delete, resets the counter, and keeps retrying rather than giving up. -/
theorem corrupt_delete_off_by_one :
    (fetchSeedRun true (List.replicate 4 ReadResult.corrupt)).2 = 0 ∧
    (fetchSeedRun true (List.replicate 4 ReadResult.corrupt ++
      [ReadResult.found ⟨"u", "v", 0⟩])).2 = 0 ∧
    (fetchSeedRun true (List.replicate 5 ReadResult.corrupt)).2 = 1 ∧
    fetchSeedRun true (List.replicate 5 ReadResult.corrupt ++
      [ReadResult.found ⟨"u", "v", 0⟩]) = (some (some ⟨"u", "v", 0⟩), 1) := by
  refine ⟨?_, ?_, ?_, ?_⟩ <;> decide

/-- C5: when the election key already holds a seed whose UID differs from the
candidate's, `electOrAdopt` keeps the stored value with no write to the key
and resolves to the stored seed, and a full `initLeader` iteration against an
existing blob returns the stored seed without overwriting the blob. -/
theorem adopt_existing_seed (k cand : ClusterSeed) (h : k.UID ≠ cand.UID) :
    electOrAdopt (some (KVValue.seed k)) cand = (some (KVValue.seed k), k, false) ∧
    initLeaderIter (some (KVValue.seed k)) (some k) cand =
      ⟨some (KVValue.seed k), some k, k, false, false⟩ := by
  constructor <;> simp [electOrAdopt, casCallback, initLeaderIter, h]

/-- Witness for C5 at the spec's scenario: stored seed `abc`, fresh candidate
`xyz`. -/
theorem adopt_existing_seed_witness :
    electOrAdopt (some (KVValue.seed ⟨"abc", "v", 0⟩)) ⟨"xyz", "v", 1⟩ =
      (some (KVValue.seed ⟨"abc", "v", 0⟩), ⟨"abc", "v", 0⟩, false) ∧
    initLeaderIter (some (KVValue.seed ⟨"abc", "v", 0⟩)) (some ⟨"abc", "v", 0⟩)
      ⟨"xyz", "v", 1⟩ =
      ⟨some (KVValue.seed ⟨"abc", "v", 0⟩), some ⟨"abc", "v", 0⟩,
        ⟨"abc", "v", 0⟩, false, false⟩ :=
  adopt_existing_seed ⟨"abc", "v", 0⟩ ⟨"xyz", "v", 1⟩ (by decide)

/-- C6: a tick is due exactly when `now == next` or `now - lastReport ≥
interval`; on a due tick a successful send sets `lastReport = next` and
advances `next` by one interval, a failed send leaves the state unchanged
(same report retried next tick), and a non-due tick changes nothing. -/
theorem tick_schedule (interval now : Int) (st : TickState) (sendOk : Bool) :
    (shouldSkip interval now st.next st.lastReport = false ↔
      (now = st.next ∨ interval ≤ now - st.lastReport)) ∧
    (shouldSkip interval now st.next st.lastReport = false →
      tick interval now true st = ⟨st.next + interval, st.next⟩) ∧
    (shouldSkip interval now st.next st.lastReport = false →
      tick interval now false st = st) ∧
    (shouldSkip interval now st.next st.lastReport = true →
      tick interval now sendOk st = st) := by
  refine ⟨?_, ?_, ?_, ?_⟩
  · simp [shouldSkip]; omega
  · intro h; simp [tick, h]
  · intro h; simp [tick, h]
  · intro h; simp [tick, h]

/-- Witness for C6: at `now = next` the due tick advances the schedule. -/
theorem tick_schedule_witness :
    tick 60 120 true ⟨120, 60⟩ = ⟨180, 120⟩ :=
  (tick_schedule 60 120 ⟨120, 60⟩ true).2.1 (by decide)

theorem reportUsageGo_count_le (send : Nat → Option String) (fuel n : Nat)
    (errs : List String) : (reportUsageGo send fuel n errs).2 ≤ fuel := by
  induction fuel generalizing n errs with
  | zero => simp [reportUsageGo]
  | succ fuel ih =>
    rcases hs : send n with _ | e
    · simp [reportUsageGo, hs]
    · simpa [reportUsageGo, hs] using ih (n + 1) (errs ++ [e])

theorem reportUsageGo_ok_iff (send : Nat → Option String) (fuel n : Nat)
    (errs : List String) :
    (reportUsageGo send fuel n errs).1 = Except.ok () ↔
      ∃ i, i < fuel ∧ send (n + i) = none := by
  induction fuel generalizing n errs with
  | zero => simp [reportUsageGo]
  | succ fuel ih =>
    rcases hs : send n with _ | e
    · simp only [reportUsageGo, hs]
      exact ⟨fun _ => ⟨0, by omega, by simpa using hs⟩, fun _ => trivial⟩
    · simp only [reportUsageGo, hs]
      rw [show ∀ p : Except (List String) Unit × Nat,
          ((match p with | (r, c) => (r, c + 1)) : Except (List String) Unit × Nat).1 = p.1
          from fun p => rfl]
      rw [ih (n + 1) (errs ++ [e])]
      constructor
      · rintro ⟨i, hi, hsend⟩
        exact ⟨i + 1, by omega, by rw [show n + (i + 1) = n + 1 + i by omega]; exact hsend⟩
      · rintro ⟨i, hi, hsend⟩
        match i, hsend with
        | 0, hsend => rw [show n + 0 = n by omega] at hsend; rw [hs] at hsend; cases hsend
        | j + 1, hsend =>
          exact ⟨j, by omega, by rw [show n + 1 + j = n + (j + 1) by omega]; exact hsend⟩

theorem reportUsageGo_exhausted (send : Nat → Option String) (fuel : Nat) :
    ∀ (n : Nat) (errs : List String), (∀ i, i < fuel → send (n + i) ≠ none) →
    (reportUsageGo send fuel n errs).1 =
      Except.error (errs ++ (List.range fuel).filterMap (fun i => send (n + i))) := by
  induction fuel with
  | zero => intro n errs _; simp [reportUsageGo]
  | succ fuel ih =>
    intro n errs hfail
    rcases hs : send n with _ | e
    · exact absurd (by simpa using hs) (hfail 0 (by omega))
    · simp only [reportUsageGo, hs]
      rw [show ∀ p : Except (List String) Unit × Nat,
          ((match p with | (r, c) => (r, c + 1)) : Except (List String) Unit × Nat).1 = p.1
          from fun p => rfl]
      rw [ih (n + 1) (errs ++ [e]) (fun i hi => by
        rw [show n + 1 + i = n + (i + 1) by omega]; exact hfail (i + 1) (by omega))]
      have hfe : ((fun i => send (n + i)) ∘ Nat.succ) = (fun i => send (n + 1 + i)) := by
        funext i
        simp only [Function.comp]
        congr 1
        omega
      have hlist : errs ++ List.filterMap (fun i => send (n + i)) (List.range (fuel + 1)) =
          (errs ++ [e]) ++ List.filterMap (fun i => send (n + 1 + i)) (List.range fuel) := by
        simp only [List.range_succ_eq_map, List.filterMap_cons, List.filterMap_map,
          Nat.add_zero, hs, hfe]
        simp
      rw [hlist]

/-- C7: a due report runs under the bounded 1s→30s backoff with at most 5
send attempts; `reportUsage` returns success iff one of the 5 attempts
succeeds, and on exhaustion it returns the aggregate of all attempt errors as
a single error value (not a crash). -/
theorem reportUsage_bounded (send : Nat → Option String) :
    reportBackoff = ⟨1, 30, 5⟩ ∧
    (reportUsage send).2 ≤ 5 ∧
    ((reportUsage send).1 = Except.ok () ↔ ∃ i, i < 5 ∧ send i = none) ∧
    ((∀ i, i < 5 → send i ≠ none) →
      (reportUsage send).1 = Except.error ((List.range 5).filterMap send)) := by
  refine ⟨rfl, reportUsageGo_count_le send 5 0 [], ?_, ?_⟩
  · rw [show reportUsage send = reportUsageGo send 5 0 [] from rfl,
      reportUsageGo_ok_iff send 5 0 []]
    simp
  · intro hfail
    rw [show reportUsage send = reportUsageGo send 5 0 [] from rfl,
      reportUsageGo_exhausted send 5 0 [] (fun i hi => by simpa using hfail i hi)]
    simp

/-- Witness for C7: a transmitter failing every attempt yields the aggregate
of all 5 attempt errors. -/
theorem reportUsage_bounded_witness :
    (reportUsage (fun _ => some "send failed")).1 =
      Except.error ((List.range 5).filterMap (fun _ => some "send failed")) :=
  (reportUsage_bounded (fun _ => some "send failed")).2.2.2 (fun i _ => by simp)

/-- C9: on start `running` computes `next` by `nextReport` from the resolved
seed's `CreatedAt`, and with a zero `lastReport` it seeds
`lastReport = next - interval`, so a tick is due exactly once its time
reaches `next`. -/
theorem first_schedule (interval createdAt now : Int) (c : ClusterSeed) :
    runningStart (some c) interval now 0 =
      Except.ok (runningSchedule interval c.CreatedAt now 0) ∧
    runningSchedule interval createdAt now 0 =
      ⟨nextReport interval createdAt now, nextReport interval createdAt now - interval⟩ ∧
    ∀ t : Int, shouldSkip interval t (nextReport interval createdAt now)
        (nextReport interval createdAt now - interval) = false ↔
      nextReport interval createdAt now ≤ t := by
  refine ⟨rfl, by simp [runningSchedule], ?_⟩
  intro t
  simp [shouldSkip]
  omega

/-- Witness for C9 at `interval = 3600`, `createdAt = 0`, `now = 5400`. -/
theorem first_schedule_witness :
    runningStart (some ⟨"a", "v", 0⟩) 3600 5400 0 =
      Except.ok (runningSchedule (3600 : Int) (ClusterSeed.CreatedAt ⟨"a", "v", 0⟩) 5400 0) ∧
    runningSchedule (3600 : Int) 0 5400 0 =
      ⟨nextReport 3600 0 5400, nextReport 3600 0 5400 - 3600⟩ ∧
    ∀ t : Int, shouldSkip 3600 t (nextReport 3600 0 5400)
        (nextReport 3600 0 5400 - 3600) = false ↔
      nextReport 3600 0 5400 ≤ t :=
  first_schedule 3600 0 5400 ⟨"a", "v", 0⟩

/-- C8: `electOrAdopt` is idempotent for the winning candidate — a first call
against the absent key elects the candidate, and a second call with the same
candidate returns the identical resolved seed and elected outcome and leaves
the stored election value unchanged. -/
theorem electOrAdopt_idempotent (cand : ClusterSeed) :
    electOrAdopt none cand = (some (KVValue.seed cand), cand, true) ∧
    electOrAdopt (electOrAdopt none cand).1 cand = electOrAdopt none cand := by
  refine ⟨rfl, ?_⟩
  simp [electOrAdopt, casCallback]

/-- C10: the CAS callback keeps the stored value (returns no write) exactly
when the current value is a well-typed `ClusterSeed` whose UID differs from
the candidate's; in every other case — absent, foreign type, or same UID —
it proposes the local candidate seed and requests the write. -/
theorem casCallback_branches (cand : ClusterSeed) (in_ : Option KVValue) :
    ((casCallback cand in_).2.1 = none ↔
      ∃ k, in_ = some (KVValue.seed k) ∧ k.UID ≠ cand.UID) ∧
    (∀ k, in_ = some (KVValue.seed k) → k.UID ≠ cand.UID →
      casCallback cand in_ = (k, none, false)) ∧
    ((∀ k, in_ = some (KVValue.seed k) → k.UID = cand.UID) →
      casCallback cand in_ = (cand, some (KVValue.seed cand), true)) := by
  rcases in_ with _ | v
  · simp [casCallback]
  · rcases v with k | _
    · by_cases h : k.UID = cand.UID <;> simp [casCallback, h]
    · simp [casCallback]

/-- Witness for C10: a foreign-typed stored value is overwritten by the
candidate. -/
theorem casCallback_branches_witness :
    casCallback ⟨"new", "v", 0⟩ (some KVValue.other) =
      (⟨"new", "v", 0⟩, some (KVValue.seed ⟨"new", "v", 0⟩), true) :=
  (casCallback_branches ⟨"new", "v", 0⟩ (some KVValue.other)).2.2
    (fun k hk => by cases hk)

end UsageStats
